import Mathlib

/-!
Shallow embedding of the column-level decoding pipeline of the parquet-rs
repository (src/column/reader.rs, src/encodings/decoding.rs, src/record/api.rs),
specialised to the INT32 physical type where the source is generic, together
with theorems settling the frozen claims about the specification.

Byte buffers are modelled as `List Nat` (each entry a byte, reduced mod 256 at
the point where the source reads memory).  Machine integers are modelled as
`Nat` / `Int` with explicit wrapping where the source wraps.  Fallible Rust
code returning `Result` is modelled with `Except`; Rust panics (`assert!`,
`expect`, out-of-bounds indexing, division by zero) are modelled as a separate
`panicError` variant so that a returned error and a panic are distinguishable.

Parts of the repository that the claims depend on but whose sources are not
available (util/bit_util.rs, encodings/rle.rs, encodings/levels.rs,
column/page.rs, basic.rs) are modelled from the specification; each such
definition carries a doc comment starting with `Modelled from the spec:`.
-/

namespace ParquetRS

/-! ## Byte and integer helpers -/

/-- Interpret a list of bytes as a little-endian natural number. -/
def leNat : List Nat → Nat
  | [] => 0
  | b :: bs => b % 256 + 256 * leNat bs

/-- Wrap an integer into the signed 32-bit two's-complement range,
the semantics of a Rust `as i32` truncating cast. -/
def wrapI32 (n : Int) : Int := (n + 2 ^ 31) % 2 ^ 32 - 2 ^ 31

/-- Wrap an integer into the signed 64-bit two's-complement range,
the semantics of Rust `i64::wrapping_add` composition. -/
def wrapI64 (n : Int) : Int := (n + 2 ^ 63) % 2 ^ 64 - 2 ^ 63

/-- Two's-complement reinterpretation of an unsigned value as `i32`
(the `u32` to `i32` transmute performed by the batch bit unpacking). -/
def toI32 (n : Nat) : Int := wrapI32 n

/-- Little-endian bytes of the 32-bit two's-complement representation of an
integer.  Used to build concrete test pages. -/
def i32LE (v : Int) : List Nat :=
  let n := (v % 2 ^ 32).toNat
  [n % 256, n / 256 % 256, n / 2 ^ 16 % 256, n / 2 ^ 24 % 256]

/-- Concatenated little-endian encoding of a list of 32-bit integers. -/
def i32sLE (vs : List Int) : List Nat := (vs.map i32LE).flatten

/-- Bit `i` of a byte list, bits LSB-first within each byte; bytes past the
end of the list read as zero. -/
def bitAt (bytes : List Nat) (i : Nat) : Nat :=
  bytes.getD (i / 8) 0 % 256 / 2 ^ (i % 8) % 2

/-- Read a `w`-bit unsigned value, LSB-first, starting at bit position `p`. -/
def bitsVal (bytes : List Nat) (p w : Nat) : Nat :=
  (List.range w).foldr (fun j acc => acc * 2 + bitAt bytes (p + j)) 0

/-- Unpack `count` consecutive `w`-bit values from a byte list, LSB-first. -/
def unpackValues (bytes : List Nat) (w count : Nat) : List Nat :=
  (List.range count).map (fun k => bitsVal bytes (k * w) w)

/-- Base-128 little-endian varint at the head of a byte list, returning the
value and the number of bytes consumed; `none` on underflow. -/
def readVlqC : List Nat → Option (Nat × Nat)
  | [] => none
  | b :: bs =>
    if b % 256 < 128 then some (b % 256, 1)
    else
      match readVlqC bs with
      | none => none
      | some (v, c) => some (b % 256 % 128 + 128 * v, c + 1)

/-- Zig-zag decoding of an unsigned varint value into a signed integer. -/
def zigzag (v : Nat) : Int :=
  if v % 2 = 0 then (v / 2 : Nat) else -(((v / 2 : Nat) : Int) + 1)

/-- Overwrite `dst` starting at position `pos` with the elements of `src`,
the model of writing into a sub-slice of a caller-provided output slice. -/
def writeAt {α : Type} (dst : List α) (pos : Nat) (src : List α) : List α :=
  dst.take pos ++ src ++ dst.drop (pos + src.length)

/-- Floor of log2 with explicit fuel (structurally recursive so that it
evaluates by reduction); the fuel never runs out when it is at least the
argument. -/
def log2Aux : Nat → Nat → Nat
  | 0, _ => 0
  | fuel + 1, n => if 2 ≤ n then log2Aux fuel (n / 2) + 1 else 0

/-- Ceiling of log2 of `n`, the bit width needed for levels up to `n - 1`;
`ceilLog2 (maxLevel + 1)` is the level bit width of the spec. -/
def ceilLog2 (n : Nat) : Nat :=
  if n ≤ 1 then 0 else log2Aux (n - 1) (n - 1) + 1

/-! ## Errors and basic enumerations -/

/-- Error model: the three error constructors of errors.rs that the embedded
code produces (`eof_err!`, `general_err!`, `nyi_err!`), plus `panicError` for
Rust panics (failed `assert!` or `expect`, out-of-bounds indexing, division
by zero), which in Rust abort rather than return. -/
inductive PErr where
  | eofError (msg : String)
  | generalError (msg : String)
  | nyiError (msg : String)
  | panicError (msg : String)
deriving DecidableEq, Repr

/-- Result type of fallible embedded operations. -/
abbrev PResult (α : Type) : Type := Except PErr α

/-- Decidable equality for results, so that concrete runs of the embedded
code can be checked by evaluation. -/
instance exceptDecEq {ε α : Type} [DecidableEq ε] [DecidableEq α] :
    DecidableEq (Except ε α) := fun a b =>
  match a, b with
  | Except.error e1, Except.error e2 =>
    if h : e1 = e2 then Decidable.isTrue (by rw [h])
    else Decidable.isFalse (by intro hh; cases hh; exact h rfl)
  | Except.ok v1, Except.ok v2 =>
    if h : v1 = v2 then Decidable.isTrue (by rw [h])
    else Decidable.isFalse (by intro hh; cases hh; exact h rfl)
  | Except.error _, Except.ok _ => Decidable.isFalse (by intro hh; cases hh)
  | Except.ok _, Except.error _ => Decidable.isFalse (by intro hh; cases hh)

/-- The encoding enumeration of basic.rs (closed set per the spec). -/
inductive Encoding where
  | PLAIN
  | PLAIN_DICTIONARY
  | RLE_DICTIONARY
  | RLE
  | BIT_PACKED
  | DELTA_BINARY_PACKED
  | DELTA_LENGTH_BYTE_ARRAY
  | DELTA_BYTE_ARRAY
deriving DecidableEq, Repr

/-- Modelled from the spec: the `Page` enum of column/page.rs (not under
src/), per spec section 3: a dictionary page, a data page v1, and a catch-all
for other page kinds that the core skips. -/
inductive Page where
  | dictionaryPage (buf : List Nat) (numValues : Nat) (encoding : Encoding)
      (isSorted : Bool)
  | dataPage (buf : List Nat) (numValues : Nat) (encoding : Encoding)
      (defLevelEncoding : Encoding) (repLevelEncoding : Encoding)
  | otherPage
deriving DecidableEq, Repr

/-- Modelled from the spec: the `encoding()` accessor of Page. -/
def Page.encoding : Page → Encoding
  | Page.dictionaryPage _ _ e _ => e
  | Page.dataPage _ _ e _ _ => e
  | Page.otherPage => Encoding.PLAIN

/-- Modelled from the spec: the `num_values()` accessor of Page. -/
def Page.numValues : Page → Nat
  | Page.dictionaryPage _ n _ _ => n
  | Page.dataPage _ n _ _ _ => n
  | Page.otherPage => 0

/-- Modelled from the spec: the `buffer()` accessor of Page. -/
def Page.buffer : Page → List Nat
  | Page.dictionaryPage b _ _ _ => b
  | Page.dataPage b _ _ _ _ => b
  | Page.otherPage => []

/-! ## BitReader (spec section 4.1) -/

/-- Modelled from the spec: the BitReader of util/bit_util.rs (not under
src/), a cursor over a byte buffer tracked as a bit offset. -/
structure BitReader where
  data : List Nat
  bitOffset : Nat
deriving DecidableEq, Repr

/-- Modelled from the spec: the read cursor rounded up to a byte boundary. -/
def BitReader.byteOffset (r : BitReader) : Nat := (r.bitOffset + 7) / 8

/-- Modelled from the spec: advance the cursor to the next byte boundary. -/
def BitReader.align (r : BitReader) : BitReader :=
  { r with bitOffset := 8 * r.byteOffset }

/-- Modelled from the spec: `getVlqInt`, a base-128 varint read at the next
byte boundary; `none` on underflow. -/
def BitReader.getVlqInt (r : BitReader) : Option (Nat × BitReader) :=
  let r1 := r.align
  let start := r1.bitOffset / 8
  match readVlqC (r1.data.drop start) with
  | none => none
  | some (v, c) => some (v, { r1 with bitOffset := 8 * (start + c) })

/-- Modelled from the spec: `getZigZagVlqInt`, a zig-zag signed varint. -/
def BitReader.getZigZagVlqInt (r : BitReader) : Option (Int × BitReader) :=
  match r.getVlqInt with
  | none => none
  | some (v, r1) => some (zigzag v, r1)

/-- Modelled from the spec: `getAligned` for `n` whole bytes, little-endian,
after advancing to the next byte boundary; `none` on underflow. -/
def BitReader.getAlignedBytes (r : BitReader) (n : Nat) :
    Option (List Nat × BitReader) :=
  let r1 := r.align
  let start := r1.bitOffset / 8
  if start + n ≤ r1.data.length then
    some (((r1.data.drop start).take n).map (fun b => b % 256),
      { r1 with bitOffset := 8 * (start + n) })
  else none

/-- Modelled from the spec: `getBatch` reading `count` values of bit width
`w`; returns the values, how many were produced (all of them unless the
buffer runs out), and the advanced reader. -/
def BitReader.getBatch (r : BitReader) (count w : Nat) :
    List Nat × Nat × BitReader :=
  if w = 0 then (List.replicate count 0, count, r)
  else
    let availableBits := 8 * r.data.length - r.bitOffset
    let loaded := min count (availableBits / w)
    let vals := (List.range loaded).map (fun k => bitsVal r.data (r.bitOffset + k * w) w)
    (vals, loaded, { r with bitOffset := r.bitOffset + loaded * w })

/-! ## RLE/bit-packed hybrid decoder (spec section 4.2) -/

/-- Modelled from the spec: the RleDecoder of encodings/rle.rs (not under
src/).  Holds the bit width, the remaining run bytes, and the state of the
current run: a pending repeat count with its value for an RLE run, or the
pending unpacked values of a bit-packed run. -/
structure RleDecoderState where
  bitWidth : Nat
  data : List Nat
  rleCount : Nat
  rleValue : Nat
  packed : List Nat
deriving DecidableEq, Repr

/-- Modelled from the spec: a fresh RLE decoder for bit width `w`. -/
def RleDecoderState.new (w : Nat) : RleDecoderState :=
  { bitWidth := w, data := [], rleCount := 0, rleValue := 0, packed := [] }

/-- Modelled from the spec: `setData` resets the cursor to a new buffer. -/
def RleDecoderState.setData (st : RleDecoderState) (d : List Nat) :
    RleDecoderState :=
  { st with data := d, rleCount := 0, rleValue := 0, packed := [] }

/-- Modelled from the spec: one pass of `getBatch` with explicit fuel.  Each
step either emits a value from the current run or reads a new run header
(VLQ; LSB discriminates bit-packed from RLE).  Fuel bounds the number of
steps; it is chosen large enough for every terminating stream. -/
def rleGetBatchAux : Nat → RleDecoderState → Nat → List Nat × RleDecoderState
  | 0, st, _ => ([], st)
  | _ + 1, st, 0 => ([], st)
  | f + 1, st, n + 1 =>
    match st.packed with
    | v :: restPacked =>
      let (vs, st1) := rleGetBatchAux f { st with packed := restPacked } n
      (v :: vs, st1)
    | [] =>
      if 0 < st.rleCount then
        let (vs, st1) := rleGetBatchAux f { st with rleCount := st.rleCount - 1 } n
        (st.rleValue :: vs, st1)
      else
        match readVlqC st.data with
        | none => ([], st)
        | some (header, c) =>
          let rest := st.data.drop c
          if header % 2 = 1 then
            let groups := header / 2
            let byteCount := groups * st.bitWidth
            let vals := unpackValues rest st.bitWidth (groups * 8)
            rleGetBatchAux f
              { st with data := rest.drop byteCount, packed := vals } (n + 1)
          else
            let byteW := (st.bitWidth + 7) / 8
            rleGetBatchAux f
              { st with data := rest.drop byteW, rleCount := header / 2,
                        rleValue := leNat (rest.take byteW) } (n + 1)

/-- Modelled from the spec: `getBatch` filling up to `n` values, returning
the decoded values (the count is their length) and the advanced decoder. -/
def rleGetBatch (st : RleDecoderState) (n : Nat) : List Nat × RleDecoderState :=
  rleGetBatchAux (n + st.data.length + 1) st n

/-- Modelled from the spec: `getBatchWithDict`; each decoded integer indexes
the dictionary, out-of-range indices fail. -/
def rleGetBatchWithDict (dict : List Int) (st : RleDecoderState) (n : Nat) :
    PResult (List Int) × RleDecoderState :=
  let (vs, st1) := rleGetBatch st n
  if vs.all (fun i => i < dict.length) then
    (Except.ok (vs.map (fun i => dict.getD i 0)), st1)
  else
    (Except.error (PErr.generalError "Index out of dictionary bounds"), st1)

/-! ## Level decoder (spec section 4.3) -/

/-- Modelled from the spec: the LevelDecoder of encodings/levels.rs (not
under src/), for the RLE level encoding used by every claim (the deprecated
BIT_PACKED level path is not exercised by any claim and is not modelled).
Bit width is ceil(log2(maxLevel + 1)). -/
structure LevelDecoderState where
  bitWidth : Nat
  rle : RleDecoderState
deriving DecidableEq, Repr

/-- Modelled from the spec: construct a level decoder for `maxLevel`. -/
def LevelDecoderState.new (maxLevel : Int) : LevelDecoderState :=
  let w := ceilLog2 (maxLevel.toNat + 1)
  { bitWidth := w, rle := RleDecoderState.new w }

/-- Modelled from the spec: `setData` for RLE levels; the first 4 bytes of
the buffer are a little-endian payload length `L`, the payload is the next
`L` bytes, and the total bytes consumed (`L + 4`) is returned. -/
def levelSetData (st : LevelDecoderState) (buf : List Nat) :
    Nat × LevelDecoderState :=
  let L := leNat (buf.take 4)
  (4 + L, { st with rle := st.rle.setData ((buf.drop 4).take L) })

/-- Modelled from the spec: `get` decodes up to `outLen` levels into a signed
16-bit output slice, returning the values decoded and the advanced decoder. -/
def levelGet (st : LevelDecoderState) (outLen : Nat) :
    List Int × LevelDecoderState :=
  let (vs, rle1) := rleGetBatch st.rle outLen
  (vs.map (fun v => (v : Int)), { st with rle := rle1 })

/-! ## PlainDecoder (decoding.rs, PLAIN) -/

/-- State of `PlainDecoder<T>` from decoding.rs: remaining value count, byte
cursor, type length (used only for FIXED_LEN_BYTE_ARRAY) and the bound
buffer (`None` until `set_data`). -/
structure PlainDecoderState where
  numValues : Nat
  start : Nat
  typeLength : Int
  data : Option (List Nat)
deriving DecidableEq, Repr

/-- `PlainDecoder::new` from decoding.rs. -/
def PlainDecoderState.new (typeLength : Int) : PlainDecoderState :=
  { numValues := 0, start := 0, typeLength := typeLength, data := none }

/-- `PlainDecoder::set_data` (default impl) from decoding.rs. -/
def plainSetData (st : PlainDecoderState) (d : List Nat) (n : Nat) :
    PlainDecoderState :=
  { st with numValues := n, start := 0, data := some d }

/-- Decode `count` fixed-width values of `sz` bytes each, little-endian, from
the head of a byte list (the memcpy of the default `PlainDecoder::get`). -/
def decodeFixed (sz : Nat) (bytes : List Nat) (count : Nat) : List Nat :=
  (List.range count).map (fun k => leNat ((bytes.drop (k * sz)).take sz))

/-- The default fixed-width `PlainDecoder::get` from decoding.rs for a value
size of `sz` bytes: decode `min(buffer.len(), num_values)` values, fail with
an eof error (before any state change) when fewer bytes remain than needed,
otherwise advance the cursor and decrement the remaining count. -/
def plainGetFW (sz : Nat) (st : PlainDecoderState) (outLen : Nat) :
    PResult (List Nat) × PlainDecoderState :=
  match st.data with
  | none => (Except.error (PErr.panicError "assertion failed: self.data.is_some()"), st)
  | some d =>
    let num := min outLen st.numValues
    let bytesLeft := d.length - st.start
    let bytesToDecode := sz * num
    if bytesLeft < bytesToDecode then
      (Except.error (PErr.eofError "Not enough bytes to decode"), st)
    else
      (Except.ok (decodeFixed sz (d.drop st.start) num),
       { st with start := st.start + bytesToDecode, numValues := st.numValues - num })

/-- `PlainDecoder::get` instantiated at INT32 (4 bytes, two's complement). -/
def plainGetI32 (st : PlainDecoderState) (outLen : Nat) :
    PResult (List Int) × PlainDecoderState :=
  match plainGetFW 4 st outLen with
  | (Except.ok vs, st1) => (Except.ok (vs.map toI32), st1)
  | (Except.error e, st1) => (Except.error e, st1)

/-! ## DictDecoder (decoding.rs, RLE_DICTIONARY) -/

/-- State of `DictDecoder<T>` from decoding.rs, at INT32. -/
structure DictDecoderState where
  dictionary : List Int
  hasDictionary : Bool
  rleDecoder : Option RleDecoderState
  numValues : Nat
deriving DecidableEq, Repr

/-- `DictDecoder::new` from decoding.rs. -/
def DictDecoderState.new : DictDecoderState :=
  { dictionary := [], hasDictionary := false, rleDecoder := none, numValues := 0 }

/-- `DictDecoder::set_dict` from decoding.rs: resize the dictionary to the
plain decoder's remaining count and fill it with one `get`. -/
def dictSetDict (st : DictDecoderState) (plain : PlainDecoderState) :
    PResult DictDecoderState :=
  let num := plain.numValues
  match plainGetI32 plain num with
  | (Except.ok vs, _) =>
      Except.ok { st with dictionary := vs, hasDictionary := true }
  | (Except.error e, _) => Except.error e

/-- `DictDecoder::set_data` from decoding.rs: the first byte of the page
payload is the bit width, the rest is the RLE/bit-packed index stream.
Reading the first byte of an empty buffer is a Rust indexing panic. -/
def dictSetData (st : DictDecoderState) (d : List Nat) (n : Nat) :
    PResult DictDecoderState :=
  match d with
  | [] => Except.error (PErr.panicError "index out of bounds: empty page buffer")
  | b :: rest =>
    Except.ok
      { st with
          numValues := n,
          rleDecoder := some ((RleDecoderState.new (b % 256)).setData rest) }

/-- `DictDecoder::get` from decoding.rs: resolve up to
`min(buffer.len(), num_values)` indices against the dictionary.  (The source
does not decrement `num_values` here.) -/
def dictGet (st : DictDecoderState) (outLen : Nat) :
    PResult (List Int) × DictDecoderState :=
  match st.rleDecoder with
  | none => (Except.error (PErr.panicError "assertion failed: rle_decoder is some"), st)
  | some rle =>
    if st.hasDictionary then
      let num := min outLen st.numValues
      match rleGetBatchWithDict st.dictionary rle num with
      | (Except.ok vs, rle1) => (Except.ok vs, { st with rleDecoder := some rle1 })
      | (Except.error e, rle1) => (Except.error e, { st with rleDecoder := some rle1 })
    else
      (Except.error (PErr.panicError "assertion failed: must call set_dict first"), st)

/-! ## DeltaBitPackDecoder (decoding.rs, DELTA_BINARY_PACKED), at INT32 -/

/-- State of `DeltaBitPackDecoder<Int32Type>` from decoding.rs.  The INT32
specialisation has `use_batch = true` (4-byte values). -/
structure DbpState where
  bitReader : BitReader
  inited : Bool
  numValues : Nat
  numMiniBlocks : Nat
  valuesPerMiniBlock : Nat
  valuesCurrentMiniBlock : Nat
  firstValue : Int
  firstValueRead : Bool
  minDelta : Int
  miniBlockIdx : Nat
  deltaBitWidth : Nat
  deltaBitWidths : List Nat
  deltasInMiniBlock : List Int
  currentValue : Int
deriving DecidableEq, Repr

/-- `DeltaBitPackDecoder::new` from decoding.rs. -/
def DbpState.new : DbpState :=
  { bitReader := { data := [], bitOffset := 0 }, inited := false,
    numValues := 0, numMiniBlocks := 0, valuesPerMiniBlock := 0,
    valuesCurrentMiniBlock := 0, firstValue := 0, firstValueRead := false,
    minDelta := 0, miniBlockIdx := 0, deltaBitWidth := 0,
    deltaBitWidths := [], deltasInMiniBlock := [], currentValue := 0 }

/-- `DeltaBitPackDecoder::set_data` from decoding.rs: read the VLQ header
(block size, mini-block count, total value count, zig-zag first value),
reset the decoding state, and derive `values_per_mini_block` (an i64
division, panicking on a zero mini-block count; its result must be a
multiple of 8 by assertion). -/
def dbpSetData (st : DbpState) (d : List Nat) : PResult DbpState :=
  let r0 : BitReader := { data := d, bitOffset := 0 }
  match r0.getVlqInt with
  | none => Except.error (PErr.eofError "Not enough data to decode block_size")
  | some (blockSize, r1) =>
    match r1.getVlqInt with
    | none => Except.error (PErr.eofError "Not enough data to decode num_mini_blocks")
    | some (nmb, r2) =>
      match r2.getVlqInt with
      | none => Except.error (PErr.eofError "Not enough data to decode num_values")
      | some (nv, r3) =>
        match r3.getZigZagVlqInt with
        | none => Except.error (PErr.eofError "Not enough data to decode first_value")
        | some (fv, r4) =>
          if nmb = 0 then
            Except.error (PErr.panicError "attempt to divide by zero")
          else
            let vpm := blockSize / nmb
            if vpm % 8 = 0 then
              Except.ok
                { st with
                    bitReader := r4, inited := true,
                    numMiniBlocks := nmb, numValues := nv, firstValue := fv,
                    firstValueRead := false, miniBlockIdx := 0,
                    deltaBitWidths := [], valuesCurrentMiniBlock := 0,
                    valuesPerMiniBlock := vpm }
            else
              Except.error
                (PErr.panicError "assertion failed: values_per_mini_block mod 8 must be 0")

/-- `DeltaBitPackDecoder::init_block` from decoding.rs: read the zig-zag
`min_delta`, then one bit-width byte per mini block, and reset the mini-block
cursor.  Reading `widths[0]` of an empty width list is an indexing panic. -/
def dbpNewBlock (st : DbpState) : PResult DbpState :=
  match st.bitReader.getZigZagVlqInt with
  | none => Except.error (PErr.eofError "Not enough data to decode min_delta")
  | some (md, r1) =>
    match r1.getAlignedBytes st.numMiniBlocks with
    | none => Except.error (PErr.eofError "Not enough data to decode width")
    | some (widths, r2) =>
      match widths with
      | [] => Except.error (PErr.panicError "index out of bounds: empty widths")
      | w0 :: _ =>
        Except.ok
          { st with
              bitReader := r2, minDelta := md,
              deltaBitWidths := widths, miniBlockIdx := 0, deltaBitWidth := w0,
              valuesCurrentMiniBlock := st.valuesPerMiniBlock }

/-- `DeltaBitPackDecoder::load_deltas_in_mini_block` from decoding.rs at
INT32 (`use_batch` path): batch-unpack one mini block of deltas at the
current width; the source asserts that the full mini block was loaded. -/
def dbpLoadDeltas (st : DbpState) : PResult DbpState :=
  let (vals, loaded, r1) := st.bitReader.getBatch st.valuesCurrentMiniBlock st.deltaBitWidth
  if loaded = st.valuesCurrentMiniBlock then
    Except.ok { st with bitReader := r1, deltasInMiniBlock := vals.map toI32 }
  else
    Except.error (PErr.panicError "assertion failed: loaded == values_current_mini_block")

/-- The width-advance part of the refill step of the `get` loop of
decoding.rs: with the mini-block index already incremented, either move to
the next recorded width of the current block or read the next block
header. -/
def dbpAdvanceWidths (st : DbpState) : PResult DbpState :=
  if st.miniBlockIdx < st.deltaBitWidths.length then
    Except.ok
      { st with
          deltaBitWidth := st.deltaBitWidths.getD st.miniBlockIdx 0,
          valuesCurrentMiniBlock := st.valuesPerMiniBlock }
  else dbpNewBlock st

/-- The mini-block refill step at the top of the `get` loop of decoding.rs:
when the current mini block is exhausted, increment the mini-block index,
advance to the next width (or read a new block header) and load the
mini-block deltas; otherwise do nothing. -/
def dbpRefill (st : DbpState) : PResult DbpState :=
  if st.valuesCurrentMiniBlock = 0 then
    match dbpAdvanceWidths { st with miniBlockIdx := st.miniBlockIdx + 1 } with
    | Except.error e => Except.error e
    | Except.ok st2 => dbpLoadDeltas st2
  else Except.ok st

/-- One iteration of the `get` loop of decoding.rs: emit the first value if
it has not been emitted, otherwise refill the mini block if needed, fetch the
delta at the inverted index, and advance `current_value` by two wrapping
64-bit additions (`min_delta`, then the delta), emitting its i32 cast. -/
def dbpStep (st : DbpState) : PResult (Int × DbpState) :=
  if st.firstValueRead then
    match dbpRefill st with
    | Except.error e => Except.error e
    | Except.ok s1 =>
      let idx := s1.deltasInMiniBlock.length - s1.valuesCurrentMiniBlock
      if h : idx < s1.deltasInMiniBlock.length then
        let delta := s1.deltasInMiniBlock.get ⟨idx, h⟩
        let c1 := wrapI64 (s1.currentValue + s1.minDelta)
        let c2 := wrapI64 (c1 + delta)
        Except.ok (wrapI32 c2,
          { s1 with currentValue := c2,
                    valuesCurrentMiniBlock := s1.valuesCurrentMiniBlock - 1 })
      else
        Except.error (PErr.panicError "index out of bounds: deltas_in_mini_block")
  else
    Except.ok (wrapI32 st.firstValue,
      { st with currentValue := st.firstValue, firstValueRead := true })

/-- The `get` loop of decoding.rs iterated `n` times. -/
def dbpGetLoop : DbpState → Nat → PResult (List Int × DbpState)
  | st, 0 => Except.ok ([], st)
  | st, n + 1 =>
    match dbpStep st with
    | Except.error e => Except.error e
    | Except.ok (v, st1) =>
      match dbpGetLoop st1 n with
      | Except.error e => Except.error e
      | Except.ok (vs, st2) => Except.ok (v :: vs, st2)

/-- `DeltaBitPackDecoder::get` from decoding.rs: assert the reader was
initialised, decode `min(buffer.len(), num_values)` values, and decrement
the remaining count. -/
def dbpGet (st : DbpState) (outLen : Nat) : PResult (List Int × DbpState) :=
  if st.inited then
    let num := min outLen st.numValues
    match dbpGetLoop st num with
    | Except.error e => Except.error e
    | Except.ok (vs, st1) =>
      Except.ok (vs, { st1 with numValues := st1.numValues - num })
  else
    Except.error (PErr.panicError "Bit reader is not initialized")

/-! ## DeltaLengthByteArrayDecoder (decoding.rs), byte-array values -/

/-- State of `DeltaLengthByteArrayDecoder<ByteArrayType>` from decoding.rs. -/
structure DlbaState where
  lengths : List Int
  currentIdx : Nat
  data : Option (List Nat)
  offset : Nat
  numValues : Nat
deriving DecidableEq, Repr

/-- `DeltaLengthByteArrayDecoder::new` from decoding.rs. -/
def DlbaState.new : DlbaState :=
  { lengths := [], currentIdx := 0, data := none, offset := 0, numValues := 0 }

/-- `DeltaLengthByteArrayDecoder::set_data` from decoding.rs: decode all the
lengths with an embedded `DeltaBitPackDecoder<Int32Type>`, then keep the rest
of the buffer (from the length decoder's byte offset) as the concatenated
value bytes. -/
def dlbaSetData (st : DlbaState) (d : List Nat) (_numValuesArg : Nat) :
    PResult DlbaState :=
  match dbpSetData DbpState.new d with
  | Except.error e => Except.error e
  | Except.ok len0 =>
    let numLengths := len0.numValues
    match dbpGet len0 numLengths with
    | Except.error e => Except.error e
    | Except.ok (ls, len1) =>
      Except.ok
        { st with
            lengths := ls, currentIdx := 0,
            data := some (d.drop len1.bitReader.byteOffset), offset := 0,
            numValues := numLengths }

/-- The per-value loop of `DeltaLengthByteArrayDecoder::get`: take the next
length, slice that many bytes from the data at the running offset, and
advance.  Out-of-bounds length indexing, a negative length cast to `usize`,
and slicing past the end of the data are Rust panics. -/
def dlbaGetLoop : DlbaState → List Nat → Nat → PResult (List (List Nat) × DlbaState)
  | st, _, 0 => Except.ok ([], st)
  | st, d, n + 1 =>
    if h : st.currentIdx < st.lengths.length then
      let len := st.lengths.get ⟨st.currentIdx, h⟩
      if len < 0 then
        Except.error (PErr.panicError "range end out of bounds: negative length as usize")
      else if st.offset + len.toNat ≤ d.length then
        let v := (d.drop st.offset).take len.toNat
        match dlbaGetLoop
            { st with offset := st.offset + len.toNat,
                      currentIdx := st.currentIdx + 1 } d n with
        | Except.error e => Except.error e
        | Except.ok (vs, st1) => Except.ok (v :: vs, st1)
      else
        Except.error (PErr.panicError "range end out of bounds: byte array data")
    else
      Except.error (PErr.panicError "index out of bounds: lengths")

/-- `DeltaLengthByteArrayDecoder::get` from decoding.rs. -/
def dlbaGet (st : DlbaState) (outLen : Nat) :
    PResult (List (List Nat) × DlbaState) :=
  match st.data with
  | none => Except.error (PErr.panicError "assertion failed: self.data.is_some()")
  | some d =>
    let num := min outLen st.numValues
    match dlbaGetLoop st d num with
    | Except.error e => Except.error e
    | Except.ok (vs, st1) =>
      Except.ok (vs, { st1 with numValues := st1.numValues - num })

/-! ## DeltaByteArrayDecoder (decoding.rs), byte-array values -/

/-- State of `DeltaByteArrayDecoder<ByteArrayType>` from decoding.rs.  The
prefix lengths are named `preLengths` here. -/
structure DbaState where
  preLengths : List Int
  currentIdx : Nat
  suffixDecoder : Option DlbaState
  previousValue : List Nat
  numValues : Nat
deriving DecidableEq, Repr

/-- `DeltaByteArrayDecoder::new` from decoding.rs. -/
def DbaState.new : DbaState :=
  { preLengths := [], currentIdx := 0, suffixDecoder := none,
    previousValue := [], numValues := 0 }

/-- `DeltaByteArrayDecoder::set_data` from decoding.rs: decode all prefix
lengths with an embedded `DeltaBitPackDecoder<Int32Type>`, hand the rest of
the buffer to a fresh suffix `DeltaLengthByteArrayDecoder`, and clear the
previous value. -/
def dbaSetData (st : DbaState) (d : List Nat) (numValuesArg : Nat) :
    PResult DbaState :=
  match dbpSetData DbpState.new d with
  | Except.error e => Except.error e
  | Except.ok p0 =>
    let numPre := p0.numValues
    match dbpGet p0 numPre with
    | Except.error e => Except.error e
    | Except.ok (pls, p1) =>
      match dlbaSetData DlbaState.new (d.drop p1.bitReader.byteOffset) numValuesArg with
      | Except.error e => Except.error e
      | Except.ok sfx =>
        Except.ok
          { st with
              preLengths := pls, currentIdx := 0,
              suffixDecoder := some sfx, previousValue := [],
              numValues := numPre }

/-- One iteration of the `get` loop of `DeltaByteArrayDecoder` from
decoding.rs: pull one suffix from the embedded suffix decoder, take the
current prefix length, emit `previous[0..prefixLen] ++ suffix`, and update
the previous value to the emitted bytes.  An absent suffix (reading the data
of an untouched ByteArray), out-of-bounds or negative prefix length, and a
prefix length exceeding the previous value are Rust panics. -/
def dbaStep (st : DbaState) : PResult (List Nat × DbaState) :=
  match st.suffixDecoder with
  | none => Except.error (PErr.panicError "assertion failed: suffix_decoder is some")
  | some sd =>
    match dlbaGet sd 1 with
    | Except.error e => Except.error e
    | Except.ok (svals, sd1) =>
      match svals with
      | [] => Except.error (PErr.panicError "ByteArray data is not set")
      | suffix :: _ =>
        if h : st.currentIdx < st.preLengths.length then
          let pl := st.preLengths.get ⟨st.currentIdx, h⟩
          if pl < 0 then
            Except.error (PErr.panicError "range end out of bounds: negative length as usize")
          else if pl.toNat ≤ st.previousValue.length then
            let result := st.previousValue.take pl.toNat ++ suffix
            Except.ok (result,
              { st with suffixDecoder := some sd1, previousValue := result,
                        currentIdx := st.currentIdx + 1 })
          else
            Except.error (PErr.panicError "range end out of bounds: previous_value")
        else
          Except.error (PErr.panicError "index out of bounds: prefix_lengths")

/-- The `get` loop of `DeltaByteArrayDecoder` iterated `n` times. -/
def dbaGetLoop : DbaState → Nat → PResult (List (List Nat) × DbaState)
  | st, 0 => Except.ok ([], st)
  | st, n + 1 =>
    match dbaStep st with
    | Except.error e => Except.error e
    | Except.ok (v, st1) =>
      match dbaGetLoop st1 n with
      | Except.error e => Except.error e
      | Except.ok (vs, st2) => Except.ok (v :: vs, st2)

/-- `DeltaByteArrayDecoder::get` from decoding.rs. -/
def dbaGet (st : DbaState) (outLen : Nat) :
    PResult (List (List Nat) × DbaState) :=
  match st.suffixDecoder with
  | none => Except.error (PErr.panicError "assertion failed: suffix_decoder is some")
  | some _ =>
    let num := min outLen st.numValues
    match dbaGetLoop st num with
    | Except.error e => Except.error e
    | Except.ok (vs, st1) =>
      Except.ok (vs, { st1 with numValues := st1.numValues - num })

/-! ## get_decoder and the decoder cache (reader.rs / decoding.rs), at INT32 -/

/-- A cached `Box<Decoder<Int32Type>>`: one variant per decoder struct that
`get_decoder` or `configure_dictionary` can construct. -/
inductive Dec where
  | plain (st : PlainDecoderState)
  | dict (st : DictDecoderState)
  | rleValue (valuesLeft : Nat) (decoder : Option RleDecoderState)
  | dbp (st : DbpState)
  | dlba (st : DlbaState)
  | dba (st : DbaState)
deriving DecidableEq, Repr

/-- `get_decoder` from decoding.rs: construct a fresh decoder for the
encoding; dictionary encodings cannot be initialised through this function,
and the remaining encoding (BIT_PACKED) is not supported. -/
def getDecoder (typeLength : Int) (enc : Encoding) : PResult Dec :=
  match enc with
  | Encoding.PLAIN => Except.ok (Dec.plain (PlainDecoderState.new typeLength))
  | Encoding.RLE_DICTIONARY | Encoding.PLAIN_DICTIONARY =>
      Except.error (PErr.generalError "Cannot initialize this encoding through this function")
  | Encoding.RLE => Except.ok (Dec.rleValue 0 none)
  | Encoding.DELTA_BINARY_PACKED => Except.ok (Dec.dbp DbpState.new)
  | Encoding.DELTA_LENGTH_BYTE_ARRAY => Except.ok (Dec.dlba DlbaState.new)
  | Encoding.DELTA_BYTE_ARRAY => Except.ok (Dec.dba DbaState.new)
  | Encoding.BIT_PACKED => Except.error (PErr.nyiError "Encoding is not supported")

/-- `Decoder::set_data` dispatched over the cached decoder variants, at
INT32: the plain and delta-bit-packed decoders accept the data; the RLE
value decoder panics for non-boolean types; the two delta byte-array
decoders only support byte arrays. -/
def decSetData (dec : Dec) (d : List Nat) (n : Nat) : PResult Dec :=
  match dec with
  | Dec.plain st => Except.ok (Dec.plain (plainSetData st d n))
  | Dec.dict st =>
    match dictSetData st d n with
    | Except.ok st1 => Except.ok (Dec.dict st1)
    | Except.error e => Except.error e
  | Dec.rleValue _ _ =>
      Except.error (PErr.panicError "RleValueDecoder only supports BoolType")
  | Dec.dbp st =>
    match dbpSetData st d with
    | Except.ok st1 => Except.ok (Dec.dbp st1)
    | Except.error e => Except.error e
  | Dec.dlba _ =>
      Except.error (PErr.generalError "DeltaLengthByteArrayDecoder only support ByteArrayType")
  | Dec.dba _ =>
      Except.error (PErr.generalError "DeltaByteArrayDecoder only support ByteArrayType")

/-- `Decoder::get` dispatched over the cached decoder variants, at INT32. -/
def decGet (dec : Dec) (outLen : Nat) : PResult (List Int) × Dec :=
  match dec with
  | Dec.plain st =>
    match plainGetI32 st outLen with
    | (r, st1) => (r, Dec.plain st1)
  | Dec.dict st =>
    match dictGet st outLen with
    | (r, st1) => (r, Dec.dict st1)
  | Dec.rleValue vl od =>
    match od with
    | none => (Except.error (PErr.panicError "RLE decoder is not initialized"), dec)
    | some rle =>
      let (vs, rle1) := rleGetBatch rle outLen
      (Except.ok (vs.map (fun v => (v : Int))),
       Dec.rleValue (vl - vs.length) (some rle1))
  | Dec.dbp st =>
    match dbpGet st outLen with
    | Except.ok (vs, st1) => (Except.ok vs, Dec.dbp st1)
    | Except.error e => (Except.error e, dec)
  | Dec.dlba _ =>
      (Except.error (PErr.generalError "DeltaLengthByteArrayDecoder only support ByteArrayType"),
       dec)
  | Dec.dba _ =>
      (Except.error (PErr.generalError "DeltaByteArrayDecoder only support ByteArrayType"),
       dec)

/-- Lookup in the decoder cache (the `HashMap<Encoding, Box<Decoder>>` of
reader.rs, modelled as an association list with unique keys). -/
def lookupDec (e : Encoding) : List (Encoding × Dec) → Option Dec
  | [] => none
  | (k, d) :: rest => if k = e then some d else lookupDec e rest

/-- Insert into the decoder cache, replacing an existing entry for the key. -/
def insertDec (e : Encoding) (d : Dec) : List (Encoding × Dec) → List (Encoding × Dec)
  | [] => [(e, d)]
  | (k, d0) :: rest =>
    if k = e then (e, d) :: rest else (k, d0) :: insertDec e d rest

/-- `HashMap::contains_key` on the decoder cache. -/
def containsDec (e : Encoding) (m : List (Encoding × Dec)) : Bool :=
  (lookupDec e m).isSome

/-! ## ColumnReaderImpl (reader.rs), at INT32 -/

/-- The ColumnDescriptor fields the core consumes: the type length (−1 for
non-fixed types) and the maximum definition and repetition levels (i16 in the
source). -/
structure ColumnDescriptor where
  typeLength : Int
  maxDefLevel : Int
  maxRepLevel : Int
deriving DecidableEq, Repr

/-- State of `ColumnReaderImpl<Int32Type>` from reader.rs.  The page reader
is modelled as the list of pages it will yield, in order. -/
structure ReaderState where
  descr : ColumnDescriptor
  pages : List Page
  defLevelDecoder : Option LevelDecoderState
  repLevelDecoder : Option LevelDecoderState
  currentEncoding : Option Encoding
  numBufferedValues : Nat
  numDecodedValues : Nat
  decoders : List (Encoding × Dec)
deriving DecidableEq, Repr

/-- `ColumnReaderImpl::new` from reader.rs. -/
def newReader (descr : ColumnDescriptor) (pages : List Page) : ReaderState :=
  { descr := descr, pages := pages, defLevelDecoder := none,
    repLevelDecoder := none, currentEncoding := none,
    numBufferedValues := 0, numDecodedValues := 0, decoders := [] }

/-- `ColumnReaderImpl::configure_dictionary` from reader.rs: normalise the
dictionary page encoding (PLAIN and PLAIN_DICTIONARY read as
RLE_DICTIONARY), fail if the cache already holds an entry for it, then build
a PlainDecoder over the page buffer, seed a DictDecoder from it, and insert
it into the cache. -/
def configureDictionary (st : ReaderState) (p : Page) : PResult Bool × ReaderState :=
  let encoding0 := p.encoding
  let encoding :=
    if encoding0 = Encoding.PLAIN ∨ encoding0 = Encoding.PLAIN_DICTIONARY then
      Encoding.RLE_DICTIONARY
    else encoding0
  if containsDec encoding st.decoders then
    (Except.error (PErr.generalError "Column cannot have more than one dictionary"), st)
  else if encoding = Encoding.RLE_DICTIONARY then
    let dictionary := plainSetData (PlainDecoderState.new st.descr.typeLength)
      p.buffer p.numValues
    match dictSetDict DictDecoderState.new dictionary with
    | Except.error e => (Except.error e, st)
    | Except.ok dd =>
      (Except.ok true,
       { st with decoders := insertDec encoding (Dec.dict dd) st.decoders })
  else
    (Except.error (PErr.nyiError "Invalid or unsupported encoding type for dictionary"), st)

/-- The level-decoder setup of the data-page arm of `read_new_page` from
reader.rs: when the column is repeated, bind a repetition level decoder to
the head of the page buffer and advance past its bytes; then likewise for
the definition levels.  (The claims only exercise the RLE level encoding,
which is what the level decoder models.) -/
def setupLevelDecoders (st : ReaderState) (buf : List Nat) :
    List Nat × ReaderState :=
  let step1 : List Nat × ReaderState :=
    if 0 < st.descr.maxRepLevel then
      let (totalBytes, dec) := levelSetData (LevelDecoderState.new st.descr.maxRepLevel) buf
      (buf.drop totalBytes, { st with repLevelDecoder := some dec })
    else (buf, st)
  match step1 with
  | (buf1, st1) =>
    if 0 < st1.descr.maxDefLevel then
      let (totalBytes, dec) := levelSetData (LevelDecoderState.new st1.descr.maxDefLevel) buf1
      (buf1.drop totalBytes, { st1 with defLevelDecoder := some dec })
    else (buf1, st1)

/-- The data-page arm of `read_new_page` from reader.rs: record the buffered
value count, set up level decoders, normalise PLAIN_DICTIONARY to
RLE_DICTIONARY, then select the value decoder: for RLE_DICTIONARY the cached
dictionary decoder must exist (`expect`, a panic, when absent); otherwise on
a cache miss only PLAIN constructs a fresh decoder and every other encoding
is rejected as unsupported.  Finally bind the page bytes to the decoder and
record the current encoding. -/
def processDataPage (st : ReaderState) (buf : List Nat) (numValues : Nat)
    (enc : Encoding) : PResult Bool × ReaderState :=
  let st0 := { st with numBufferedValues := numValues, numDecodedValues := 0 }
  match setupLevelDecoders st0 buf with
  | (buf2, st2) =>
    let encoding := if enc = Encoding.PLAIN_DICTIONARY then Encoding.RLE_DICTIONARY else enc
    if encoding = Encoding.RLE_DICTIONARY then
      match lookupDec encoding st2.decoders with
      | none => (Except.error (PErr.panicError "Decoder for dict should have been set"), st2)
      | some dec =>
        match decSetData dec buf2 numValues with
        | Except.error e => (Except.error e, st2)
        | Except.ok dec1 =>
          (Except.ok true,
           { st2 with
               decoders := insertDec encoding dec1 st2.decoders,
               currentEncoding := some encoding })
    else
      let cached : PResult (List (Encoding × Dec)) :=
        if containsDec encoding st2.decoders then Except.ok st2.decoders
        else
          match encoding with
          | Encoding.PLAIN =>
            match getDecoder st2.descr.typeLength encoding with
            | Except.ok d => Except.ok (insertDec encoding d st2.decoders)
            | Except.error e => Except.error e
          | _ => Except.error (PErr.nyiError "Unsupported encoding")
      match cached with
      | Except.error e => (Except.error e, st2)
      | Except.ok decs =>
        match lookupDec encoding decs with
        | none =>
          (Except.error (PErr.panicError "unwrap on a missing cache entry"),
           { st2 with decoders := decs })
        | some dec =>
          match decSetData dec buf2 numValues with
          | Except.error e => (Except.error e, { st2 with decoders := decs })
          | Except.ok dec1 =>
            (Except.ok true,
             { st2 with
                 decoders := insertDec encoding dec1 decs,
                 currentEncoding := some encoding })

/-- The page loop of `read_new_page` from reader.rs, structurally recursive
over the pending pages: no page left reports false; a dictionary page is
configured and the loop continues; a data page is processed and the loop
returns; other page kinds are skipped. -/
def readNewPageAux : List Page → ReaderState → PResult Bool × ReaderState
  | [], st => (Except.ok false, st)
  | p :: rest, st0 =>
    let st := { st0 with pages := rest }
    match p with
    | Page.dictionaryPage _ _ _ _ =>
      match configureDictionary st p with
      | (Except.error e, st2) => (Except.error e, st2)
      | (Except.ok _, st2) => readNewPageAux rest st2
    | Page.dataPage buf nv enc _ _ => processDataPage st buf nv enc
    | Page.otherPage => readNewPageAux rest st

/-- `ColumnReaderImpl::read_new_page` from reader.rs. -/
def readNewPage (st : ReaderState) : PResult Bool × ReaderState :=
  readNewPageAux st.pages st

/-- `ColumnReaderImpl::has_next` from reader.rs. -/
def hasNext (st : ReaderState) : PResult Bool × ReaderState :=
  if st.numBufferedValues = 0 ∨ st.numBufferedValues = st.numDecodedValues then
    match readNewPage st with
    | (Except.error e, st1) => (Except.error e, st1)
    | (Except.ok false, st1) => (Except.ok false, st1)
    | (Except.ok true, st1) => (Except.ok (st1.numBufferedValues != 0), st1)
  else (Except.ok true, st)

/-- `ColumnReaderImpl::read_def_levels` from reader.rs: `expect` (a panic)
when no definition level decoder is set, else decode into the sub-slice. -/
def readDefLevels (st : ReaderState) (outLen : Nat) :
    PResult (List Int) × ReaderState :=
  match st.defLevelDecoder with
  | none => (Except.error (PErr.panicError "def_level_decoder be set"), st)
  | some dec =>
    let (vs, dec1) := levelGet dec outLen
    (Except.ok vs, { st with defLevelDecoder := some dec1 })

/-- `ColumnReaderImpl::read_rep_levels` from reader.rs. -/
def readRepLevels (st : ReaderState) (outLen : Nat) :
    PResult (List Int) × ReaderState :=
  match st.repLevelDecoder with
  | none => (Except.error (PErr.panicError "rep_level_decoder be set"), st)
  | some dec =>
    let (vs, dec1) := levelGet dec outLen
    (Except.ok vs, { st with repLevelDecoder := some dec1 })

/-- `ColumnReaderImpl::read_values` from reader.rs: `expect` (panics) when no
current encoding or no cached decoder for it, else decode values and store
the advanced decoder back into the cache. -/
def readValues (st : ReaderState) (outLen : Nat) :
    PResult (List Int) × ReaderState :=
  match st.currentEncoding with
  | none => (Except.error (PErr.panicError "current_encoding should be set"), st)
  | some enc =>
    match lookupDec enc st.decoders with
    | none => (Except.error (PErr.panicError "decoder for encoding should be set"), st)
    | some dec =>
      match decGet dec outLen with
      | (r, dec1) => (r, { st with decoders := insertDec enc dec1 st.decoders })

/-- The definition-level step of one `read_batch` iteration from reader.rs:
when the column has definition levels and the caller supplied a slice,
assert the slice is large enough (a panic otherwise), decode up to
`nextLevelsRead - lr` levels into it at offset `lr`, and count how many equal
the maximum definition level; otherwise every value is read
(`values_to_read = batch_size`).  Returns (number of definition levels read,
values to read, updated slice). -/
def readBatchDefStep (st : ReaderState) (batchSize : Nat)
    (dl : Option (List Int)) (lr nextLevelsRead : Nat) :
    PResult (Nat × Nat × Option (List Int)) × ReaderState :=
  if 0 < st.descr.maxDefLevel then
    match dl with
    | some levels =>
      if levels.length < nextLevelsRead then
        (Except.error (PErr.panicError "def_levels length must be at least next_levels_read"),
         st)
      else
        match readDefLevels st (nextLevelsRead - lr) with
        | (Except.error e, st1) => (Except.error e, st1)
        | (Except.ok vs, st1) =>
          let valuesToRead := (vs.filter (fun v => v = st.descr.maxDefLevel)).length
          (Except.ok (vs.length, valuesToRead, some (writeAt levels lr vs)), st1)
    | none => (Except.ok (0, batchSize, none), st)
  else (Except.ok (0, batchSize, dl), st)

/-- The repetition-level step of one `read_batch` iteration from reader.rs:
when the column is repeated and a slice was supplied, decode repetition
levels, assert their count equals the definition level count (panic
otherwise), and advance `levels_read` — the only place `levels_read` is
advanced.  Returns (updated slice, new levels_read). -/
def readBatchRepStep (st : ReaderState) (rl : Option (List Int))
    (lr nextLevelsRead numDef : Nat) :
    PResult (Option (List Int) × Nat) × ReaderState :=
  if 0 < st.descr.maxRepLevel then
    match rl with
    | some levels =>
      if levels.length < nextLevelsRead then
        (Except.error (PErr.panicError "rep_levels length must be at least next_levels_read"),
         st)
      else
        match readRepLevels st (nextLevelsRead - lr) with
        | (Except.error e, st1) => (Except.error e, st1)
        | (Except.ok vs, st1) =>
          if numDef = vs.length then
            (Except.ok (some (writeAt levels lr vs), lr + vs.length), st1)
          else
            (Except.error (PErr.panicError "Number of decoded rep and def levels did not match"),
             st1)
    | none => (Except.ok (none, lr), st)
  else (Except.ok (rl, lr), st)

/-- Result of `read_batch`: the returned pair plus the final contents of the
caller-provided output slices. -/
structure BatchResult where
  valuesRead : Nat
  levelsRead : Nat
  defOut : Option (List Int)
  repOut : Option (List Int)
  valOut : List Int
deriving DecidableEq, Repr

/-- The `while values_read < batch_size` loop of `read_batch` from
reader.rs, with explicit fuel (running out of fuel models the
non-termination the source would exhibit on the same input; the budget used
by `readBatch` is large enough for every input the source terminates on). -/
def readBatchLoop : Nat → ReaderState → Nat → Option (List Int) →
    Option (List Int) → List Int → Nat → Nat → PResult BatchResult × ReaderState
  | 0, st, _, _, _, _, _, _ =>
      (Except.error (PErr.panicError "iteration budget exhausted"), st)
  | fuel + 1, st, batchSize, dl, rl, vals, vr, lr =>
    if vr < batchSize then
      match hasNext st with
      | (Except.error e, st1) => (Except.error e, st1)
      | (Except.ok false, st1) =>
        (Except.ok { valuesRead := vr, levelsRead := lr, defOut := dl,
                     repOut := rl, valOut := vals }, st1)
      | (Except.ok true, st1) =>
        let nextLevelsRead :=
          lr + min batchSize (st1.numBufferedValues - st1.numDecodedValues)
        match readBatchDefStep st1 batchSize dl lr nextLevelsRead with
        | (Except.error e, st2) => (Except.error e, st2)
        | (Except.ok (numDef, valuesToRead, dl1), st2) =>
          match readBatchRepStep st2 rl lr nextLevelsRead numDef with
          | (Except.error e, st3) => (Except.error e, st3)
          | (Except.ok (rl1, lr1), st3) =>
            if vals.length < vr + valuesToRead then
              (Except.error (PErr.panicError "values length must be at least values_read plus values_to_read"),
               st3)
            else
              match readValues st3 valuesToRead with
              | (Except.error e, st4) => (Except.error e, st4)
              | (Except.ok vsV, st4) =>
                let st5 := { st4 with numDecodedValues :=
                  st4.numDecodedValues + max numDef vsV.length }
                readBatchLoop fuel st5 batchSize dl1 rl1
                  (writeAt vals vr vsV) (vr + vsV.length) lr1
    else
      (Except.ok { valuesRead := vr, levelsRead := lr, defOut := dl,
                   repOut := rl, valOut := vals }, st)

/-- An iteration budget that dominates the number of loop iterations of any
terminating `read_batch` run: each productive iteration reads values or
consumes a page. -/
def pagesBudget (ps : List Page) : Nat :=
  ps.foldl (fun a p => a + p.numValues + 1) 0

/-- `ColumnReaderImpl::read_batch` from reader.rs: fill at most `batchSize`
values (per loop iteration) into the supplied definition level, repetition
level and value slices, returning the number of values and levels read
together with the written slices. -/
def readBatch (st : ReaderState) (batchSize : Nat) (dl rl : Option (List Int))
    (vals : List Int) : PResult BatchResult × ReaderState :=
  readBatchLoop (batchSize + st.numBufferedValues + pagesBudget st.pages + 1)
    st batchSize dl rl vals 0 0

/-! ## Row conversion (record/api.rs) -/

/-- The variants of the `RowField` enum of record/api.rs needed here. -/
inductive RowField where
  | Null
  | Timestamp (millis : Nat)
deriving DecidableEq, Repr

/-- `RowField::convert_int96` from record/api.rs, on the three little-endian
32-bit words of an Int96.  All arithmetic is unsigned 64-bit: the
subtraction of the julian epoch and the accumulation of day nanoseconds wrap
modulo 2^64 exactly as Rust `u64` arithmetic does in release builds. -/
def convertInt96 (w0 w1 w2 : Nat) : RowField :=
  let julianToUnixEpochDays : Nat := 2440588
  let milliSecondsInADay : Nat := 86400000
  let nanoSecondsInADay : Nat := milliSecondsInADay * 1000000
  let daysSinceEpoch := (w2 % 2 ^ 32 + 2 ^ 64 - julianToUnixEpochDays) % 2 ^ 64
  let nanoseconds := (w1 % 2 ^ 32) * 2 ^ 32 + w0 % 2 ^ 32
  let nanos := (daysSinceEpoch * nanoSecondsInADay + nanoseconds) % 2 ^ 64
  let millis := nanos / 1000000
  RowField.Timestamp millis

/-! ## Helper lemmas -/

/-- Looking up a key just inserted into the decoder cache finds it. -/
theorem lookupDec_insertDec_self (e : Encoding) (d : Dec) :
    ∀ m : List (Encoding × Dec), lookupDec e (insertDec e d m) = some d := by
  intro m
  induction m with
  | nil => simp [insertDec, lookupDec]
  | cons hd tl ih =>
    obtain ⟨k, d0⟩ := hd
    by_cases hk : k = e
    · simp [insertDec, lookupDec, hk]
    · simp [insertDec, lookupDec, hk, ih]

/-- An absent cache entry means the membership test is false, and back. -/
theorem containsDec_eq_false_iff (e : Encoding) (m : List (Encoding × Dec)) :
    containsDec e m = false ↔ lookupDec e m = none := by
  unfold containsDec
  cases lookupDec e m <;> simp

/-- Setting up the level decoders changes neither the decoder cache nor the
descriptor of the reader. -/
theorem setupLevelDecoders_preserves (st : ReaderState) (buf : List Nat) :
    (setupLevelDecoders st buf).2.decoders = st.decoders ∧
    (setupLevelDecoders st buf).2.descr = st.descr := by
  unfold setupLevelDecoders
  by_cases h1 : 0 < st.descr.maxRepLevel <;>
    simp only [h1, if_true, if_false, reduceIte] <;>
    split <;> simp

/-- Truncation to 32 bits factors through truncation to 64 bits. -/
theorem wrapI32_wrapI64 (x : Int) : wrapI32 (wrapI64 x) = wrapI32 x := by
  unfold wrapI32 wrapI64
  omega

/-- A 64-bit-wrapped left summand can be unwrapped under 32-bit wrapping. -/
theorem wrapI32_add_wrapI64_left (x y : Int) :
    wrapI32 (wrapI64 x + y) = wrapI32 (x + y) := by
  unfold wrapI32 wrapI64
  omega

/-- A 32-bit-wrapped left summand can be unwrapped under 32-bit wrapping. -/
theorem wrapI32_add_wrapI32_left (x y : Int) :
    wrapI32 (wrapI32 x + y) = wrapI32 (x + y) := by
  unfold wrapI32
  omega

/-- Reading a new block header never changes the running value. -/
theorem dbpNewBlock_currentValue (s t : DbpState)
    (h : dbpNewBlock s = Except.ok t) : t.currentValue = s.currentValue := by
  unfold dbpNewBlock at h
  split at h
  · cases h
  · split at h
    · cases h
    · split at h
      · cases h
      · cases h
        rfl

/-- Loading the deltas of a mini block never changes the running value. -/
theorem dbpLoadDeltas_currentValue (s t : DbpState)
    (h : dbpLoadDeltas s = Except.ok t) : t.currentValue = s.currentValue := by
  unfold dbpLoadDeltas at h
  dsimp only at h
  split at h
  · cases h
    rfl
  · cases h

/-- The width-advance step never changes the running value. -/
theorem dbpAdvanceWidths_currentValue (s t : DbpState)
    (h : dbpAdvanceWidths s = Except.ok t) : t.currentValue = s.currentValue := by
  unfold dbpAdvanceWidths at h
  split at h
  · cases h
    rfl
  · exact dbpNewBlock_currentValue s t h

/-- The mini-block refill step never changes the running value. -/
theorem dbpRefill_currentValue (st t : DbpState)
    (h : dbpRefill st = Except.ok t) : t.currentValue = st.currentValue := by
  unfold dbpRefill at h
  split at h
  · split at h
    · cases h
    · rename_i st2 hadv
      have h2 := dbpLoadDeltas_currentValue st2 t h
      have h3 := dbpAdvanceWidths_currentValue _ st2 hadv
      rw [h2, h3]
  · cases h
    rfl

/-! ## Concrete inputs used by the claims -/

/-- The data page of the optional-int32 scenario: RLE def-level block (length
prefix 2, one bit-packed run of the levels 1,0,1,1,0 padded to eight values),
then the PLAIN values 10, 20, 30. -/
def c1Page : Page :=
  Page.dataPage ([2, 0, 0, 0, 3, 13] ++ i32sLE [10, 20, 30]) 5
    Encoding.PLAIN Encoding.RLE Encoding.RLE

/-- The data page of the required-int32 PLAIN scenario: values 42, 18, 52 in
12 little-endian bytes. -/
def c6Page : Page :=
  Page.dataPage (i32sLE [42, 18, 52]) 3 Encoding.PLAIN Encoding.RLE Encoding.RLE

/-- A 10-value PLAIN page holding 1..10. -/
def c10PageA : Page :=
  Page.dataPage (i32sLE ((List.range 10).map (fun k => ((k : Int) + 1)))) 10
    Encoding.PLAIN Encoding.RLE Encoding.RLE

/-- A 20-value PLAIN page holding 11..30. -/
def c10PageB : Page :=
  Page.dataPage (i32sLE ((List.range 20).map (fun k => ((k : Int) + 11)))) 20
    Encoding.PLAIN Encoding.RLE Encoding.RLE

/-! ## Claim C1 -/

/-- C1 (code bug): for the descriptor (INT32, maxDef = 1, maxRep = 0) and one
page holding the definition levels 1,0,1,1,0 and the PLAIN values 10,20,30,
`read_batch(5, defOut, None, valOut)` returns valuesRead = 3 with defOut and
valOut filled as the claim states — but levelsRead = 0, not the 5 that the
claim (and the doc comment of `read_batch`, which promises the actual number
of levels read) requires: the source only advances `levels_read` in the
repetition-level branch, which a maxRep = 0 column never enters. -/
theorem c1_read_batch_optional_column_levels :
    (readBatch (newReader ⟨-1, 1, 0⟩ [c1Page]) 5
        (some [0, 0, 0, 0, 0]) none [0, 0, 0, 0, 0]).1 =
      Except.ok { valuesRead := 3, levelsRead := 0, defOut := some [1, 0, 1, 1, 0],
                  repOut := none, valOut := [10, 20, 30, 0, 0] } ∧
    (3 : Nat) ≠ 0 := by
  exact ⟨by decide, by decide⟩

/-! ## Claim C5 -/

/-- C5: on an exhausted reader (page source empty, current page fully
decoded or never loaded), `read_batch` returns Ok((0,0)) for every batch
size and output slices, leaving the reader state — buffered and decoded
counts, decoder cache, current encoding, level decoders — unchanged and the
slices untouched. -/
theorem c5_exhausted_reader_idempotent (st : ReaderState) (batchSize : Nat)
    (dl rl : Option (List Int)) (vals : List Int)
    (hpages : st.pages = [])
    (hdone : st.numBufferedValues = 0 ∨ st.numBufferedValues = st.numDecodedValues) :
    readBatch st batchSize dl rl vals =
      (Except.ok { valuesRead := 0, levelsRead := 0, defOut := dl, repOut := rl,
                   valOut := vals }, st) := by
  have hnext : hasNext st = (Except.ok false, st) := by
    unfold hasNext
    rw [if_pos hdone]
    unfold readNewPage
    rw [hpages]
    rfl
  unfold readBatch
  rw [hpages]
  show readBatchLoop (batchSize + st.numBufferedValues + pagesBudget [] + 1)
      st batchSize dl rl vals 0 0 = _
  rw [readBatchLoop]
  by_cases hb : 0 < batchSize
  · rw [if_pos hb, hnext]
  · rw [if_neg hb]

/-- C5 witness: a fresh reader over an empty page source returns (0,0) and
is returned unchanged. -/
theorem c5_witness :
    readBatch (newReader ⟨-1, 0, 0⟩ []) 4 none none [0, 0, 0, 0] =
      (Except.ok { valuesRead := 0, levelsRead := 0, defOut := none,
                   repOut := none, valOut := [0, 0, 0, 0] },
       newReader ⟨-1, 0, 0⟩ []) :=
  c5_exhausted_reader_idempotent (newReader ⟨-1, 0, 0⟩ []) 4 none none
    [0, 0, 0, 0] rfl (Or.inl rfl)

/-! ## Claim C6 -/

/-- C6: the fixed-width `PlainDecoder::get` (INT32 instance, 4-byte values)
decodes exactly min(len(out), valuesLeft) values by copying that many 4-byte
little-endian groups from the bound buffer at the cursor, advancing the
cursor and decreasing valuesLeft accordingly, and returns an eof error with
the state unchanged exactly when fewer bytes remain than required; and for a
required INT32 column with one PLAIN page encoding 42,18,52 in 12 bytes,
`readBatch(3, None, None, out)` returns (3, 0) with out = [42, 18, 52]. -/
theorem c6_plain_decoder_get (st : PlainDecoderState) (d : List Nat)
    (outLen : Nat) (hdata : st.data = some d) :
    (if d.length - st.start < 4 * min outLen st.numValues then
       plainGetI32 st outLen =
         (Except.error (PErr.eofError "Not enough bytes to decode"), st)
     else
       plainGetI32 st outLen =
         (Except.ok ((decodeFixed 4 (d.drop st.start) (min outLen st.numValues)).map toI32),
          { st with start := st.start + 4 * min outLen st.numValues,
                    numValues := st.numValues - min outLen st.numValues })) ∧
    (readBatch (newReader ⟨-1, 0, 0⟩ [c6Page]) 3 none none [0, 0, 0]).1 =
      Except.ok { valuesRead := 3, levelsRead := 0, defOut := none,
                  repOut := none, valOut := [42, 18, 52] } := by
  constructor
  · by_cases hc : d.length - st.start < 4 * min outLen st.numValues
    · rw [if_pos hc]
      unfold plainGetI32 plainGetFW
      rw [hdata]
      simp only [if_pos hc]
    · rw [if_neg hc]
      unfold plainGetI32 plainGetFW
      rw [hdata]
      simp only [if_neg hc]
  · decide

/-- C6 witness: the theorem applied to the decoder bound to the 12-byte page
of the scenario, fully evaluated. -/
theorem c6_witness :
    plainGetI32 ⟨3, 0, -1, some (i32sLE [42, 18, 52])⟩ 3 =
      (Except.ok [42, 18, 52], ⟨0, 12, -1, some (i32sLE [42, 18, 52])⟩) := by
  have h := (c6_plain_decoder_get ⟨3, 0, -1, some (i32sLE [42, 18, 52])⟩
    (i32sLE [42, 18, 52]) 3 rfl).1
  rw [if_neg (by decide)] at h
  exact h.trans (by decide)

/-! ## Claim C9 -/

/-- C9 counterexample: at the triple (0, 0, 2654092) — julian day within the
u32 range and at least 2440588 — the code returns 1526290 ms (the u64
product of the day count with the nanoseconds per day wraps modulo 2^64),
not the 18446745600000 ms that the claimed formula
(julianDay − 2440588) · 86400000 + nanos / 1000000 yields. -/
theorem c9_counterexample :
    convertInt96 0 0 2654092 = RowField.Timestamp 1526290 ∧
    (2654092 - 2440588) * 86400000 + 0 / 1000000 = 18446745600000 ∧
    (1526290 : Nat) ≠ 18446745600000 := by
  exact ⟨by decide, by decide, by decide⟩

/-- C9 (amended): for every Int96 whose julian-day word is at least 2440588
and small enough that the day-to-nanosecond product plus the intra-day
nanoseconds stays below 2^64 (no u64 overflow), `convert_int96` returns
Timestamp(ms) with ms = (julianDay − 2440588) · 86400000 + nanos / 1000000,
nanos = (word1 << 32) | word0. -/
theorem c9_convert_int96_amended (w0 w1 w2 : Nat)
    (h0 : w0 < 2 ^ 32) (h1 : w1 < 2 ^ 32) (h2 : w2 < 2 ^ 32)
    (hjd : 2440588 ≤ w2)
    (hfit : (w2 - 2440588) * 86400000000000 + (w1 * 2 ^ 32 + w0) < 2 ^ 64) :
    convertInt96 w0 w1 w2 =
      RowField.Timestamp
        ((w2 - 2440588) * 86400000 + (w1 * 2 ^ 32 + w0) / 1000000) := by
  unfold convertInt96
  rw [Nat.mod_eq_of_lt h0, Nat.mod_eq_of_lt h1, Nat.mod_eq_of_lt h2]
  dsimp only
  have hdays : (w2 + 2 ^ 64 - 2440588) % 2 ^ 64 = w2 - 2440588 := by omega
  rw [hdays]
  have hnanos : (w2 - 2440588) * (86400000 * 1000000) + (w1 * 2 ^ 32 + w0) < 2 ^ 64 := by
    have : (86400000 : Nat) * 1000000 = 86400000000000 := by norm_num
    rw [this]
    exact hfit
  rw [Nat.mod_eq_of_lt hnanos]
  have hdiv : ((w2 - 2440588) * (86400000 * 1000000) + (w1 * 2 ^ 32 + w0)) / 1000000 =
      (w2 - 2440588) * 86400000 + (w1 * 2 ^ 32 + w0) / 1000000 := by
    have hrw : (w2 - 2440588) * (86400000 * 1000000) + (w1 * 2 ^ 32 + w0) =
        1000000 * ((w2 - 2440588) * 86400000) + (w1 * 2 ^ 32 + w0) := by ring_nf
    rw [hrw, Nat.mul_add_div (by norm_num)]
  rw [hdiv]

/-- C9 witness: the first concrete triple of the claim, through the amended
theorem: (0, 0, 2454923) maps to 1238544000000 ms. -/
theorem c9_witness :
    convertInt96 0 0 2454923 =
      RowField.Timestamp ((2454923 - 2440588) * 86400000 + (0 * 2 ^ 32 + 0) / 1000000) :=
  c9_convert_int96_amended 0 0 2454923 (by decide) (by decide) (by decide)
    (by decide) (by decide)

/-! ## Claim C10 -/

/-- C10: for a required column, each `read_batch` loop iteration requests up
to batchSize further values regardless of what earlier iterations read: with
a 10-value PLAIN page followed by a 20-value PLAIN page,
`readBatch(16, None, None, valOut)` with a 26-slot output returns
valuesRead = 26, strictly more than the batch size of 16 — the values 1..26
spanning the page boundary. -/
theorem c10_read_batch_exceeds_batch_size :
    (readBatch (newReader ⟨-1, 0, 0⟩ [c10PageA, c10PageB]) 16 none none
        (List.replicate 26 0)).1 =
      Except.ok { valuesRead := 26, levelsRead := 0, defOut := none,
                  repOut := none,
                  valOut := [1, 2, 3, 4, 5, 6, 7, 8, 9, 10, 11, 12, 13, 14,
                             15, 16, 17, 18, 19, 20, 21, 22, 23, 24, 25, 26] } ∧
    16 < 26 := by
  exact ⟨by decide, by decide⟩

/-! ## Claim C4 -/

/-- C4: when the decoder cache already holds a dictionary entry, a further
DictionaryPage (any dictionary encoding: PLAIN, PLAIN_DICTIONARY or
RLE_DICTIONARY — they all normalise to RLE_DICTIONARY) makes
`configure_dictionary` return the duplicate-dictionary error with the reader
state, including the cache with its first dictionary, unchanged; moreover
`configure_dictionary` can only succeed when the cache held no dictionary
entry, so a column chunk never acquires a second dictionary decoder under
the key RLE_DICTIONARY. -/
theorem c4_duplicate_dictionary (st : ReaderState) (buf : List Nat) (nv : Nat)
    (enc : Encoding) (srt : Bool) (d : Dec)
    (hdict : lookupDec Encoding.RLE_DICTIONARY st.decoders = some d)
    (henc : enc = Encoding.PLAIN ∨ enc = Encoding.PLAIN_DICTIONARY ∨
            enc = Encoding.RLE_DICTIONARY) :
    configureDictionary st (Page.dictionaryPage buf nv enc srt) =
      (Except.error (PErr.generalError "Column cannot have more than one dictionary"),
       st) ∧
    (∀ (st2 : ReaderState) (p : Page) (b : Bool) (st2' : ReaderState),
       configureDictionary st2 p = (Except.ok b, st2') →
       lookupDec Encoding.RLE_DICTIONARY st2.decoders = none) := by
  constructor
  · have hcontains : containsDec Encoding.RLE_DICTIONARY st.decoders = true := by
      unfold containsDec
      rw [hdict]
      rfl
    rcases henc with h | h | h <;> subst h <;>
      simp [configureDictionary, Page.encoding, hcontains]
  · intro st2 p b st2' h
    unfold configureDictionary at h
    dsimp only at h
    by_cases hcon : containsDec
        (if p.encoding = Encoding.PLAIN ∨ p.encoding = Encoding.PLAIN_DICTIONARY
         then Encoding.RLE_DICTIONARY else p.encoding) st2.decoders = true
    · rw [if_pos hcon] at h
      simp at h
    · by_cases hrd : (if p.encoding = Encoding.PLAIN ∨
          p.encoding = Encoding.PLAIN_DICTIONARY
          then Encoding.RLE_DICTIONARY else p.encoding) = Encoding.RLE_DICTIONARY
      · rw [hrd] at hcon
        rw [← containsDec_eq_false_iff]
        simpa using hcon
      · rw [if_neg hcon, if_neg hrd] at h
        simp at h

/-- C4 witness: a reader whose cache holds a dictionary decoder rejects a
second PLAIN-encoded dictionary page unchanged. -/
theorem c4_witness :
    configureDictionary
      { descr := ⟨-1, 0, 0⟩, pages := [], defLevelDecoder := none,
        repLevelDecoder := none, currentEncoding := none,
        numBufferedValues := 0, numDecodedValues := 0,
        decoders := [(Encoding.RLE_DICTIONARY, Dec.dict DictDecoderState.new)] }
      (Page.dictionaryPage [] 0 Encoding.PLAIN false) =
      (Except.error (PErr.generalError "Column cannot have more than one dictionary"),
       { descr := ⟨-1, 0, 0⟩, pages := [], defLevelDecoder := none,
         repLevelDecoder := none, currentEncoding := none,
         numBufferedValues := 0, numDecodedValues := 0,
         decoders := [(Encoding.RLE_DICTIONARY, Dec.dict DictDecoderState.new)] }) :=
  (c4_duplicate_dictionary
    { descr := ⟨-1, 0, 0⟩, pages := [], defLevelDecoder := none,
      repLevelDecoder := none, currentEncoding := none,
      numBufferedValues := 0, numDecodedValues := 0,
      decoders := [(Encoding.RLE_DICTIONARY, Dec.dict DictDecoderState.new)] }
    [] 0 Encoding.PLAIN false
    (Dec.dict DictDecoderState.new) rfl (Or.inl rfl)).1

/-! ## Claim C2 -/

/-- C2 counterexample: a data page whose value encoding is RLE_DICTIONARY
arriving with an empty decoder cache makes `read_new_page` panic via
`expect` — the result is the modelled panic, not a returned
missing-dictionary error as the claim states. -/
theorem c2_counterexample :
    (readNewPage (newReader ⟨-1, 0, 0⟩
        [Page.dataPage [0] 1 Encoding.RLE_DICTIONARY Encoding.RLE Encoding.RLE])).1 =
      Except.error (PErr.panicError "Decoder for dict should have been set") := by
  decide

/-- C2 (amended): whenever `read_new_page` meets a data page whose value
encoding normalises to RLE_DICTIONARY and the decoder cache holds no
dictionary entry, the call panics with "Decoder for dict should have been
set" (the `expect` of reader.rs) instead of returning a MissingDictionary
error to the caller. -/
theorem c2_missing_dictionary_panics (st : ReaderState) (buf : List Nat)
    (nv : Nat) (enc dEnc rEnc : Encoding) (rest : List Page)
    (hpages : st.pages = Page.dataPage buf nv enc dEnc rEnc :: rest)
    (henc : enc = Encoding.RLE_DICTIONARY ∨ enc = Encoding.PLAIN_DICTIONARY)
    (hnodict : lookupDec Encoding.RLE_DICTIONARY st.decoders = none) :
    (readNewPage st).1 =
      Except.error (PErr.panicError "Decoder for dict should have been set") := by
  unfold readNewPage
  rw [hpages]
  show (processDataPage { st with pages := rest } buf nv enc).1 = _
  unfold processDataPage
  dsimp only
  rcases hsetup : setupLevelDecoders
      { st with pages := rest, numBufferedValues := nv, numDecodedValues := 0 } buf
    with ⟨buf2, st2⟩
  dsimp only
  have hdec : st2.decoders = st.decoders := by
    have := (setupLevelDecoders_preserves
      { st with pages := rest, numBufferedValues := nv, numDecodedValues := 0 } buf).1
    rw [hsetup] at this
    exact this
  have hnorm : (if enc = Encoding.PLAIN_DICTIONARY then Encoding.RLE_DICTIONARY else enc) =
      Encoding.RLE_DICTIONARY := by
    rcases henc with h | h <;> subst h <;> rfl
  rw [hnorm]
  rw [hdec, hnodict]
  simp

/-- C2 witness: the amended theorem at a PLAIN_DICTIONARY-encoded data page
on a fresh reader. -/
theorem c2_witness :
    (readNewPage (newReader ⟨-1, 0, 0⟩
        [Page.dataPage [2] 4 Encoding.PLAIN_DICTIONARY Encoding.RLE Encoding.RLE])).1 =
      Except.error (PErr.panicError "Decoder for dict should have been set") :=
  c2_missing_dictionary_panics (newReader ⟨-1, 0, 0⟩
      [Page.dataPage [2] 4 Encoding.PLAIN_DICTIONARY Encoding.RLE Encoding.RLE])
    [2] 4 Encoding.PLAIN_DICTIONARY Encoding.RLE Encoding.RLE [] rfl
    (Or.inr rfl) rfl

/-! ## Claim C3 -/

/-- C3 counterexample: a data page encoded RLE — inside the enumerated set of
spec section 4.4 — does not make the dispatcher construct a decoder and
report ready: `read_new_page` returns the unsupported-encoding error (the
dispatcher's match admits only PLAIN). -/
theorem c3_counterexample :
    (readNewPage (newReader ⟨-1, 0, 0⟩
        [Page.dataPage [0] 1 Encoding.RLE Encoding.RLE Encoding.RLE])).1 =
      Except.error (PErr.nyiError "Unsupported encoding") := by
  decide

/-- C3 (amended): on a cache miss the dispatcher constructs a fresh value
decoder only for PLAIN, reporting ready; for every other non-dictionary
encoding of the enumerated set (RLE, DELTA_BINARY_PACKED,
DELTA_LENGTH_BYTE_ARRAY, DELTA_BYTE_ARRAY) it fails with the
unsupported-encoding error, even though `get_decoder` itself does construct
decoders for that whole set. -/
theorem c3_dispatcher_only_plain :
    (∀ (st : ReaderState) (buf : List Nat) (nv : Nat) (enc dEnc rEnc : Encoding)
       (rest : List Page),
       st.pages = Page.dataPage buf nv enc dEnc rEnc :: rest →
       (enc = Encoding.RLE ∨ enc = Encoding.DELTA_BINARY_PACKED ∨
        enc = Encoding.DELTA_LENGTH_BYTE_ARRAY ∨ enc = Encoding.DELTA_BYTE_ARRAY) →
       containsDec enc st.decoders = false →
       (readNewPage st).1 = Except.error (PErr.nyiError "Unsupported encoding")) ∧
    (∀ (st : ReaderState) (buf : List Nat) (nv : Nat) (dEnc rEnc : Encoding)
       (rest : List Page),
       st.pages = Page.dataPage buf nv Encoding.PLAIN dEnc rEnc :: rest →
       containsDec Encoding.PLAIN st.decoders = false →
       (readNewPage st).1 = Except.ok true) ∧
    (∀ tl : Int, ∀ enc : Encoding,
       (enc = Encoding.PLAIN ∨ enc = Encoding.RLE ∨
        enc = Encoding.DELTA_BINARY_PACKED ∨ enc = Encoding.DELTA_LENGTH_BYTE_ARRAY ∨
        enc = Encoding.DELTA_BYTE_ARRAY) →
       ∃ dec : Dec, getDecoder tl enc = Except.ok dec) := by
  refine ⟨?_, ?_, ?_⟩
  · intro st buf nv enc dEnc rEnc rest hpages henc hmiss
    unfold readNewPage
    rw [hpages]
    show (processDataPage { st with pages := rest } buf nv enc).1 = _
    unfold processDataPage
    dsimp only
    rcases hsetup : setupLevelDecoders
        { st with pages := rest, numBufferedValues := nv, numDecodedValues := 0 } buf
      with ⟨buf2, st2⟩
    dsimp only
    have hdec : st2.decoders = st.decoders := by
      have := (setupLevelDecoders_preserves
        { st with pages := rest, numBufferedValues := nv, numDecodedValues := 0 } buf).1
      rw [hsetup] at this
      exact this
    rcases henc with h | h | h | h <;> subst h <;> simp [hdec, hmiss]
  · intro st buf nv dEnc rEnc rest hpages hmiss
    unfold readNewPage
    rw [hpages]
    show (processDataPage { st with pages := rest } buf nv Encoding.PLAIN).1 = _
    unfold processDataPage
    dsimp only
    rcases hsetup : setupLevelDecoders
        { st with pages := rest, numBufferedValues := nv, numDecodedValues := 0 } buf
      with ⟨buf2, st2⟩
    dsimp only
    have hdec : st2.decoders = st.decoders := by
      have := (setupLevelDecoders_preserves
        { st with pages := rest, numBufferedValues := nv, numDecodedValues := 0 } buf).1
      rw [hsetup] at this
      exact this
    simp [hdec, hmiss, getDecoder, lookupDec_insertDec_self, decSetData,
      plainSetData]
  · intro tl enc henc
    rcases henc with h | h | h | h | h <;> subst h <;> exact ⟨_, rfl⟩

/-- C3 witness: a DELTA_BINARY_PACKED data page on a fresh reader is
rejected as unsupported by the dispatcher, and `get_decoder` does construct
a DELTA_BINARY_PACKED decoder. -/
theorem c3_witness :
    (readNewPage (newReader ⟨-1, 0, 0⟩
        [Page.dataPage [0] 1 Encoding.DELTA_BINARY_PACKED Encoding.RLE
          Encoding.RLE])).1 =
      Except.error (PErr.nyiError "Unsupported encoding") ∧
    getDecoder (-1) Encoding.DELTA_BINARY_PACKED = Except.ok (Dec.dbp DbpState.new) :=
  ⟨c3_dispatcher_only_plain.1 (newReader ⟨-1, 0, 0⟩
      [Page.dataPage [0] 1 Encoding.DELTA_BINARY_PACKED Encoding.RLE Encoding.RLE])
    [0] 1 Encoding.DELTA_BINARY_PACKED Encoding.RLE Encoding.RLE [] rfl
    (Or.inr (Or.inl rfl)) rfl,
   rfl⟩

/-! ## Claim C7 -/

/-- The byte stream of the delta-bit-packed sample: VLQ block size 128, 4
mini blocks, 3 values, zig-zag first value 29; then zig-zag min delta 14,
widths 6,0,0,0 and the packed deltas, 34 bytes in total. -/
def c7Bytes : List Nat :=
  [128, 1, 4, 3, 58, 28, 6, 0, 0, 0, 0, 8] ++ List.replicate 22 0

/-- Bind the sample bytes, record the header byte offset, decode three
values, and record the final byte offset. -/
def c7Run : PResult (List Int × Nat × Nat) :=
  match dbpSetData DbpState.new c7Bytes with
  | Except.error e => Except.error e
  | Except.ok s0 =>
    match dbpGet s0 3 with
    | Except.error e => Except.error e
    | Except.ok (vs, s1) =>
      Except.ok (vs, s0.bitReader.byteOffset, s1.bitReader.byteOffset)

/-- C7: `DeltaBitPackDecoder::get` emits firstValue as the first output (up
to the i32 cast), and every subsequent output equals the previous running
value plus minDelta plus the unpacked delta at its position, with wrapping
two's-complement addition (at the 32-bit output level the previous output can
replace the running value, since truncation respects the wrap); and on the
concrete byte stream the three decoded values are 29, 43, 89 with the bit
reader at byte offset 34 afterwards (and 5 after the header). -/
theorem c7_delta_bit_pack :
    (∀ s : DbpState, s.firstValueRead = false →
       dbpStep s = Except.ok (wrapI32 s.firstValue,
         { s with currentValue := s.firstValue, firstValueRead := true })) ∧
    (∀ (s s1 : DbpState) (v : Int), s.firstValueRead = true →
       dbpStep s = Except.ok (v, s1) →
       ∃ smid : DbpState, dbpRefill s = Except.ok smid ∧
         v = wrapI32 (wrapI32 s.currentValue + smid.minDelta +
               smid.deltasInMiniBlock.getD
                 (smid.deltasInMiniBlock.length - smid.valuesCurrentMiniBlock) 0)) ∧
    c7Run = Except.ok ([29, 43, 89], 5, 34) := by
  refine ⟨?_, ?_, by decide⟩
  · intro s hfv
    unfold dbpStep
    rw [hfv]
    simp
  · intro s s1 v hfv h
    unfold dbpStep at h
    rw [if_pos hfv] at h
    cases hr : dbpRefill s with
    | error e =>
      rw [hr] at h
      simp at h
    | ok smid =>
      rw [hr] at h
      dsimp only at h
      split at h
      · rename_i hidx
        refine ⟨smid, rfl, ?_⟩
        have hv : wrapI32 (wrapI64 (wrapI64 (smid.currentValue + smid.minDelta) +
            smid.deltasInMiniBlock.get ⟨smid.deltasInMiniBlock.length -
              smid.valuesCurrentMiniBlock, hidx⟩)) = v :=
          congrArg Prod.fst (Except.ok.inj h)
        rw [← hv, wrapI32_wrapI64, wrapI32_add_wrapI64_left]
        rw [dbpRefill_currentValue s smid hr]
        rw [List.getD_eq_getElem _ _ hidx, List.get_eq_getElem]
        rw [add_assoc, add_assoc, wrapI32_add_wrapI32_left]
      · simp at h

/-- C7 witness: the first-value step of the theorem on a fresh decoder. -/
theorem c7_witness :
    dbpStep DbpState.new =
      Except.ok (wrapI32 (0 : Int),
        { DbpState.new with currentValue := 0, firstValueRead := true }) :=
  c7_delta_bit_pack.1 DbpState.new rfl

/-! ## Claim C8 -/

/-- The byte stream of the delta-byte-array example: a delta-bit-packed
sub-stream of prefix lengths [0], a delta-length-byte-array sub-stream of
suffix lengths [3], and the suffix bytes of "abc". -/
def c8Bytes : List Nat := [128, 1, 4, 1, 0] ++ [128, 1, 4, 1, 6] ++ [97, 98, 99]

/-- Bind the example bytes, record the initial previous value, decode one
value, and record the final previous value. -/
def c8Run : PResult (List (List Nat) × List Nat × List Nat) :=
  match dbaSetData DbaState.new c8Bytes 1 with
  | Except.error e => Except.error e
  | Except.ok s0 =>
    match dbaGet s0 1 with
    | Except.error e => Except.error e
    | Except.ok (vs, s1) => Except.ok (vs, s0.previousValue, s1.previousValue)

/-- C8: after `DeltaByteArrayDecoder::set_data` the previous value is the
empty byte string; every decoded value is previous[0..prefixLen] followed by
the next suffix from the embedded DeltaLengthByteArray sub-stream, and
previous is updated to the emitted value; concretely, the example stream
with prefix length 0 decodes to its suffix "abc" (bytes 97, 98, 99). -/
theorem c8_delta_byte_array :
    (∀ (st st' : DbaState) (d : List Nat) (n : Nat),
       dbaSetData st d n = Except.ok st' → st'.previousValue = []) ∧
    (∀ (st st1 : DbaState) (v : List Nat),
       dbaStep st = Except.ok (v, st1) →
       ∃ (sd sd1 : DlbaState) (suffix : List Nat) (restS : List (List Nat)),
         st.suffixDecoder = some sd ∧
         dlbaGet sd 1 = Except.ok (suffix :: restS, sd1) ∧
         v = st.previousValue.take (st.preLengths.getD st.currentIdx 0).toNat ++
               suffix ∧
         st1.previousValue = v) ∧
    c8Run = Except.ok ([[97, 98, 99]], [], [97, 98, 99]) := by
  refine ⟨?_, ?_, by decide⟩
  · intro st st' d n h
    unfold dbaSetData at h
    split at h
    · simp at h
    · dsimp only at h
      split at h
      · simp at h
      · split at h
        · simp at h
        · have h2 := Except.ok.inj h
          subst h2
          rfl
  · intro st st1 v h
    unfold dbaStep at h
    cases hsd : st.suffixDecoder with
    | none =>
      rw [hsd] at h
      simp at h
    | some sd =>
      rw [hsd] at h
      dsimp only at h
      cases hget : dlbaGet sd 1 with
      | error e =>
        rw [hget] at h
        simp at h
      | ok p =>
        obtain ⟨svals, sd1⟩ := p
        rw [hget] at h
        dsimp only at h
        cases svals with
        | nil => simp at h
        | cons suffix restS =>
          dsimp only at h
          split at h
          · rename_i hidx
            split at h
            · simp at h
            · split at h
              · rename_i hle
                have hinj := Except.ok.inj h
                have hA : st.previousValue.take
                    (st.preLengths.get ⟨st.currentIdx, hidx⟩).toNat ++ suffix = v :=
                  congrArg Prod.fst hinj
                refine ⟨sd, sd1, suffix, restS, rfl, hget, ?_, ?_⟩
                · rw [← hA]
                  rw [List.getD_eq_getElem _ _ hidx, List.get_eq_getElem]
                · have hB : ({ st with
                        suffixDecoder := some sd1,
                        previousValue := st.previousValue.take
                          (st.preLengths.get ⟨st.currentIdx, hidx⟩).toNat ++ suffix,
                        currentIdx := st.currentIdx + 1 } : DbaState) = st1 :=
                    congrArg Prod.snd hinj
                  rw [← hB]
                  exact hA
              · simp at h
          · simp at h

/-- C8 witness: the set-data part of the theorem at the example stream — the
previous value starts empty. -/
theorem c8_witness :
    ({ preLengths := [0], currentIdx := 0,
       suffixDecoder := some
         { lengths := [3], currentIdx := 0, data := some [97, 98, 99],
           offset := 0, numValues := 1 },
       previousValue := [], numValues := 1 } : DbaState).previousValue =
      ([] : List Nat) :=
  c8_delta_byte_array.1 DbaState.new _ c8Bytes 1 (by decide)

end ParquetRS
